import Mathlib

/-!
Verification of the ambulance waiting-list web API
(`internal/ambulance_wl/impl_ambulance_waiting_list.go`).

The five CRUD mutations are embedded from the Go source.  The model types
(`Ambulance`, `WaitingListEntry`), the reconciler `reconcileWaitingList` and
the orchestrator `updateAmbulanceFunc` are declared elsewhere in the
repository (generated models / sibling files not present here); they are
modelled from the specification, as marked on each such definition.

Modelling conventions:
* `time.Time` values are modelled as `Nat` (nanoseconds since the zero
  time); `t.After(time.Time{})` becomes `0 < t`.
* Go's `int32 EstimatedDurationMinutes` is modelled as `Int`; the only
  operation on it is the comparison `> 0`, so no overflow arithmetic arises.
* A Go slice value that may be `nil` is modelled as `Option (List _)` where
  the distinction is observable (JSON marshalling in `GetWaitingListEntries`);
  inside an `Ambulance` the waiting list is a plain `List` since all other
  code paths treat `nil` and the empty slice identically.
* `c.ShouldBindJSON` is modelled as an `Option WaitingListEntry` argument:
  `none` is a failed bind, `some e` a successful bind producing `e` (absent
  JSON fields bind to the Go zero value: `""`, time zero, `0`).
* `uuid.NewString()` is modelled as an explicit argument `genId`.
-/

/-- One patient's waiting-list record (spec §3). -/
structure WaitingListEntry where
  id : String
  patientId : String
  waitingSince : Nat
  estimatedDurationMinutes : Int
  deriving Repr, DecidableEq

/-- The Go zero value of `WaitingListEntry`; used as the (provably never
taken) default of guarded index accesses. -/
def defaultEntry : WaitingListEntry :=
  { id := "", patientId := "", waitingSince := 0, estimatedDurationMinutes := 0 }

/-- Aggregate root owning one waiting list (spec §3). -/
structure Ambulance where
  id : String
  name : String
  waitingList : List WaitingListEntry
  deriving Repr, DecidableEq

/-- Go's `slices.IndexFunc`: index of the first element satisfying `p`,
`-1` when none does. -/
def indexFunc {α : Type} : List α → (α → Bool) → Int
  | [], _ => -1
  | x :: xs, p =>
    if p x then 0
    else
      let r := indexFunc xs p
      if r < 0 then -1 else r + 1

/-- Response payload of a mutation, as handed to gin: a structured error
object, a single entry, a list of entries, JSON `null` (a marshalled nil
slice), or no body at all (204). -/
inductive Payload : Type where
  | errorObj (status : Nat) (message : String) : Payload
  | entryPayload (e : WaitingListEntry) : Payload
  | listPayload (l : List WaitingListEntry) : Payload
  | nullJson : Payload
  | noBody : Payload
  deriving Repr, DecidableEq

/-- Result triple of a mutation handed to `updateAmbulanceFunc`:
`(new ambulance state or nil, response payload, HTTP status)`. -/
structure MutationResult where
  newState : Option Ambulance
  payload : Payload
  status : Nat
  deriving Repr, DecidableEq

/-- Modelled from the spec: `reconcileWaitingList` is declared outside the
given sources (only its call sites appear).  Spec §4.2: it establishes a
deterministic ordering by arrival time (`waitingSince`, ascending) with ties
broken by the stable secondary key (entry `id`).  `entryBefore a b` is that
ordering's "a comes no later than b" relation. -/
def entryBefore (a b : WaitingListEntry) : Prop :=
  a.waitingSince < b.waitingSince ∨
    (a.waitingSince = b.waitingSince ∧ a.id ≤ b.id)

instance : DecidableRel entryBefore := fun a b =>
  inferInstanceAs (Decidable (a.waitingSince < b.waitingSince ∨
    (a.waitingSince = b.waitingSince ∧ a.id ≤ b.id)))

instance : IsTotal WaitingListEntry entryBefore where
  total a b := by
    unfold entryBefore
    rcases Nat.lt_trichotomy a.waitingSince b.waitingSince with h | h | h
    · exact Or.inl (Or.inl h)
    · rcases le_total a.id b.id with h' | h'
      · exact Or.inl (Or.inr ⟨h, h'⟩)
      · exact Or.inr (Or.inr ⟨h.symm, h'⟩)
    · exact Or.inr (Or.inl h)

instance : IsTrans WaitingListEntry entryBefore where
  trans a b c hab hbc := by
    unfold entryBefore at *
    rcases hab with h1 | ⟨h1, h1'⟩
    · rcases hbc with h2 | ⟨h2, _⟩
      · exact Or.inl (h1.trans h2)
      · exact Or.inl (h2 ▸ h1)
    · rcases hbc with h2 | ⟨h2, h2'⟩
      · exact Or.inl (h1 ▸ h2)
      · exact Or.inr ⟨h1.trans h2, h1'.trans h2'⟩

/-- Modelled from the spec: `reconcileWaitingList` (spec §4.2), the Waiting
List Reconciler.  It re-sorts the ambulance's waiting list into the
deterministic order `entryBefore`; a stable insertion sort realises both the
ordering and the stable tie-breaking the spec demands.  It has no failure
mode and handles the empty list. -/
def reconcileWaitingList (ambulance : Ambulance) : Ambulance :=
  { ambulance with waitingList := List.insertionSort entryBefore ambulance.waitingList }

/-- Id generation of `CreateWaitingListEntry`
(impl_ambulance_waiting_list.go lines 71–76): replace the id with the
generated one exactly when it is empty or the placeholder `"@new"`. -/
def effectiveEntry (genId : String) (entry0 : WaitingListEntry) :
    WaitingListEntry :=
  if entry0.id = "" ∨ entry0.id = "@new" then { entry0 with id := genId }
  else entry0

/-- `CreateWaitingListEntry` mutation body
(impl_ambulance_waiting_list.go lines 49–112).  `body` is the bind result,
`genId` the value `uuid.NewString()` would produce. -/
def createWaitingListEntry (body : Option WaitingListEntry) (genId : String)
    (ambulance : Ambulance) : MutationResult :=
  match body with
  | none =>
    { newState := none, payload := Payload.errorObj 400 "Invalid request body",
      status := 400 }
  | some entry0 =>
    if entry0.patientId = "" then
      { newState := none, payload := Payload.errorObj 400 "Patient ID is required",
        status := 400 }
    else
      let entry := effectiveEntry genId entry0
      let conflictIndx := indexFunc ambulance.waitingList
        (fun waiting => entry.id == waiting.id || entry.patientId == waiting.patientId)
      if 0 ≤ conflictIndx then
        { newState := none, payload := Payload.errorObj 409 "Entry already exists",
          status := 409 }
      else
        let amb2 := reconcileWaitingList
          { ambulance with waitingList := ambulance.waitingList ++ [entry] }
        let entryIndx := indexFunc amb2.waitingList
          (fun waiting => entry.id == waiting.id)
        if entryIndx < 0 then
          { newState := none, payload := Payload.errorObj 500 "Failed to save entry",
            status := 500 }
        else
          { newState := some amb2,
            payload := Payload.entryPayload
              (amb2.waitingList.getD entryIndx.toNat defaultEntry),
            status := 200 }

/-- `DeleteWaitingListEntry` mutation body
(impl_ambulance_waiting_list.go lines 117–141). -/
def deleteWaitingListEntry (entryId : String) (ambulance : Ambulance) :
    MutationResult :=
  if entryId = "" then
    { newState := none, payload := Payload.errorObj 400 "Entry ID is required",
      status := 400 }
  else
    let entryIndx := indexFunc ambulance.waitingList
      (fun waiting => entryId == waiting.id)
    if entryIndx < 0 then
      { newState := none, payload := Payload.errorObj 404 "Entry not found",
        status := 404 }
    else
      let amb2 := reconcileWaitingList
        { ambulance with
          waitingList := ambulance.waitingList.take entryIndx.toNat ++
            ambulance.waitingList.drop (entryIndx.toNat + 1) }
      { newState := some amb2, payload := Payload.noBody, status := 204 }

/-- `GetWaitingListEntries` mutation body
(impl_ambulance_waiting_list.go lines 144–153), with the Go slice's nil-ness
made explicit: `none` models a nil `WaitingList` slice, which gin would
marshal to JSON `null` were it not replaced by the guard
`if result == nil { result = []WaitingListEntry{} }`. -/
def getWaitingListEntriesRaw (wl : Option (List WaitingListEntry)) :
    MutationResult :=
  let result := wl
  let result := if result = none then some ([] : List WaitingListEntry) else result
  { newState := none,
    payload := match result with
      | none => Payload.nullJson
      | some l => Payload.listPayload l,
    status := 200 }

/-- `GetWaitingListEntries` applied to an ambulance value whose list is
already materialised (a non-nil slice). -/
def getWaitingListEntries (ambulance : Ambulance) : MutationResult :=
  getWaitingListEntriesRaw (some ambulance.waitingList)

/-- `GetWaitingListEntry` mutation body
(impl_ambulance_waiting_list.go lines 156–179). -/
def getWaitingListEntry (entryId : String) (ambulance : Ambulance) :
    MutationResult :=
  if entryId = "" then
    { newState := none, payload := Payload.errorObj 400 "Entry ID is required",
      status := 400 }
  else
    let entryIndx := indexFunc ambulance.waitingList
      (fun waiting => entryId == waiting.id)
    if entryIndx < 0 then
      { newState := none, payload := Payload.errorObj 404 "Entry not found",
        status := 404 }
    else
      { newState := none,
        payload := Payload.entryPayload
          (ambulance.waitingList.getD entryIndx.toNat defaultEntry),
        status := 200 }

/-- The four field-merge `if`s of `UpdateWaitingListEntry`
(impl_ambulance_waiting_list.go lines 214–228), applied to the target in
source order: each field of the target is overwritten by the request's value
only when that value is non-empty / after the zero time / positive. -/
def mergeEntry (entry target : WaitingListEntry) : WaitingListEntry :=
  let target :=
    if entry.patientId ≠ "" then { target with patientId := entry.patientId }
    else target
  let target :=
    if entry.id ≠ "" then { target with id := entry.id } else target
  let target :=
    if 0 < entry.waitingSince then { target with waitingSince := entry.waitingSince }
    else target
  if 0 < entry.estimatedDurationMinutes then
    { target with estimatedDurationMinutes := entry.estimatedDurationMinutes }
  else target

/-- `UpdateWaitingListEntry` mutation body
(impl_ambulance_waiting_list.go lines 184–232).  The field merge is
`mergeEntry`; note the response payload is read back at the
*pre-reconciliation* index `entryIndx`, exactly as the source does. -/
def updateWaitingListEntry (body : Option WaitingListEntry) (entryId : String)
    (ambulance : Ambulance) : MutationResult :=
  match body with
  | none =>
    { newState := none, payload := Payload.errorObj 400 "Invalid request body",
      status := 400 }
  | some entry =>
    if entryId = "" then
      { newState := none, payload := Payload.errorObj 400 "Entry ID is required",
        status := 400 }
    else
      let entryIndx := indexFunc ambulance.waitingList
        (fun waiting => entryId == waiting.id)
      if entryIndx < 0 then
        { newState := none, payload := Payload.errorObj 404 "Entry not found",
          status := 404 }
      else
        let i := entryIndx.toNat
        let amb2 := reconcileWaitingList
          { ambulance with waitingList := (ambulance.waitingList.set i
              (mergeEntry entry (ambulance.waitingList.getD i defaultEntry))) }
        { newState := some amb2,
          payload := Payload.entryPayload
            (amb2.waitingList.getD i defaultEntry),
          status := 200 }

/-- Outcome of one HTTP request as seen at the store: the document stored
for the target ambulance after the request, whether a replace was issued,
and the forwarded payload/status. -/
structure RequestOutcome where
  stored : Option Ambulance
  writeIssued : Bool
  payload : Payload
  status : Nat
  deriving Repr, DecidableEq

/-- `id` values of a waiting list; spec §3 requires these pairwise
distinct. -/
abbrev idsNodup (l : List WaitingListEntry) : Prop :=
  (l.map (fun e => e.id)).Nodup

/-- `patientId` values of a waiting list; spec §3 requires these pairwise
distinct. -/
abbrev patientIdsNodup (l : List WaitingListEntry) : Prop :=
  (l.map (fun e => e.patientId)).Nodup

/-- Modelled from the spec: `updateAmbulanceFunc` (the Concurrency-Safe
Updater, spec §4.1) is declared outside the given sources (only its call
sites appear).  `stored` is the document the store holds for the target
ambulance (`none` = not found).  Per the spec: not-found fails with 404
before the mutation runs; a nil new-state issues no write; a non-nil
new-state is persisted as a full-document replace; payload and status of
the mutation are forwarded verbatim. -/
def updateAmbulanceFunc (stored : Option Ambulance)
    (mutation : Ambulance → MutationResult) : RequestOutcome :=
  match stored with
  | none =>
    { stored := none, writeIssued := false,
      payload := Payload.errorObj 404 "Ambulance not found", status := 404 }
  | some ambulance =>
    let r := mutation ambulance
    match r.newState with
    | none =>
      { stored := some ambulance, writeIssued := false,
        payload := r.payload, status := r.status }
    | some amb2 =>
      { stored := some amb2, writeIssued := true,
        payload := r.payload, status := r.status }

/-! ## Helper lemmas about `indexFunc` -/

theorem indexFunc_neg_iff {α : Type} (l : List α) (p : α → Bool) :
    indexFunc l p < 0 ↔ ∀ x ∈ l, p x = false := by
  induction l with
  | nil => simp [indexFunc]
  | cons x xs ih =>
    simp only [List.forall_mem_cons]
    by_cases hx : p x
    · have hv : indexFunc (x :: xs) p = 0 := by simp [indexFunc, hx]
      rw [hv]
      simp [hx]
    · by_cases hr : indexFunc xs p < 0
      · have hv : indexFunc (x :: xs) p = -1 := by simp [indexFunc, hx, hr]
        rw [hv]
        constructor
        · intro _
          exact ⟨Bool.eq_false_iff.mpr hx, ih.mp hr⟩
        · intro _
          omega
      · have hv : indexFunc (x :: xs) p = indexFunc xs p + 1 := by
          simp [indexFunc, hx, hr]
        rw [hv]
        constructor
        · intro h
          omega
        · rintro ⟨-, hall⟩
          exact absurd (ih.mpr hall) hr

theorem indexFunc_nonneg_iff {α : Type} (l : List α) (p : α → Bool) :
    0 ≤ indexFunc l p ↔ ∃ x ∈ l, p x = true := by
  rw [← Int.not_lt, indexFunc_neg_iff]
  simp

theorem indexFunc_spec {α : Type} (d : α) (l : List α) (p : α → Bool)
    (h : 0 ≤ indexFunc l p) :
    (indexFunc l p).toNat < l.length ∧ p (l.getD (indexFunc l p).toNat d) = true := by
  induction l with
  | nil => simp [indexFunc] at h
  | cons x xs ih =>
    by_cases hx : p x
    · simp [indexFunc, hx]
    · by_cases hr : indexFunc xs p < 0
      · exfalso
        have : indexFunc (x :: xs) p = -1 := by simp [indexFunc, hx, hr]
        omega
      · have h' : 0 ≤ indexFunc xs p := by omega
        obtain ⟨hlt, hp⟩ := ih h'
        have hv : indexFunc (x :: xs) p = indexFunc xs p + 1 := by
          simp [indexFunc, hx, hr]
        have htn : (indexFunc (x :: xs) p).toNat = (indexFunc xs p).toNat + 1 := by
          omega
        rw [htn]
        constructor
        · simpa using hlt
        · simpa using hp

theorem getD_mem {α : Type} (l : List α) (n : Nat) (d : α) (h : n < l.length) :
    l.getD n d ∈ l := by
  rw [List.getD_eq_get l d h]
  exact List.get_mem l n h

/-! ## Helper lemmas about duplicate-freedom -/

theorem nodup_map_of_perm {α β : Type} (f : α → β) {l1 l2 : List α}
    (hp : l1.Perm l2) (h : (l1.map f).Nodup) : (l2.map f).Nodup :=
  ((hp.map f).nodup_iff).mp h

theorem nodup_map_set {α β : Type} (f : α → β) :
    ∀ (l : List α) (i : Nat) (v : α), (l.map f).Nodup →
      (∀ x ∈ l.eraseIdx i, f x ≠ f v) → ((l.set i v).map f).Nodup := by
  intro l
  induction l with
  | nil =>
    intro i v _ _
    simp
  | cons a t ih =>
    intro i v h hv
    cases i with
    | zero =>
      simp only [List.set_cons_zero]
      simp only [List.eraseIdx_cons_zero] at hv
      simp only [List.map_cons, List.nodup_cons] at h ⊢
      constructor
      · intro hmem
        obtain ⟨x, hx, hfx⟩ := List.mem_map.mp hmem
        exact hv x hx hfx
      · exact h.2
    | succ i =>
      simp only [List.set_cons_succ]
      simp only [List.eraseIdx_cons_succ] at hv
      simp only [List.map_cons, List.nodup_cons] at h ⊢
      refine ⟨?_, ih i v h.2 (fun x hx => hv x (List.mem_cons_of_mem _ hx))⟩
      intro hmem
      obtain ⟨x, hx, hfx⟩ := List.mem_map.mp hmem
      rcases List.mem_or_eq_of_mem_set hx with hx' | rfl
      · exact h.1 (hfx ▸ List.mem_map_of_mem f hx')
      · exact hv a (List.mem_cons_self a _) hfx.symm

theorem not_mem_map_eraseIdx {α β : Type} (f : α → β) :
    ∀ (l : List α) (i : Nat) (hi : i < l.length), (l.map f).Nodup →
      ∀ x ∈ l.eraseIdx i, f x ≠ f (l.get ⟨i, hi⟩) := by
  intro l
  induction l with
  | nil =>
    intro i hi
    simp at hi
  | cons a t ih =>
    intro i hi h x hx
    cases i with
    | zero =>
      simp only [List.eraseIdx_cons_zero] at hx
      simp only [List.map_cons, List.nodup_cons] at h
      intro heq
      exact h.1 (heq ▸ List.mem_map_of_mem f hx)
    | succ i =>
      simp only [List.eraseIdx_cons_succ] at hx
      simp only [List.map_cons, List.nodup_cons] at h
      have hi' : i < t.length := by simpa using hi
      have hget : (a :: t).get ⟨i + 1, hi⟩ = t.get ⟨i, hi'⟩ := rfl
      rw [hget]
      rcases List.mem_cons.mp hx with rfl | hx'
      · intro heq
        exact h.1 (heq ▸ List.mem_map_of_mem f (List.get_mem t i hi'))
      · exact ih i hi' h.2 x hx'

/-! ## Reconciler facts -/

theorem reconcile_sorted (ambulance : Ambulance) :
    List.Sorted entryBefore (reconcileWaitingList ambulance).waitingList :=
  List.sorted_insertionSort entryBefore ambulance.waitingList

theorem reconcile_perm (ambulance : Ambulance) :
    (reconcileWaitingList ambulance).waitingList.Perm ambulance.waitingList :=
  List.perm_insertionSort entryBefore ambulance.waitingList

theorem reconcile_id_name (ambulance : Ambulance) :
    (reconcileWaitingList ambulance).id = ambulance.id ∧
      (reconcileWaitingList ambulance).name = ambulance.name :=
  ⟨rfl, rfl⟩

/-! ## Field behaviour of `effectiveEntry` and `mergeEntry` -/

theorem effectiveEntry_id (g : String) (e : WaitingListEntry) :
    (effectiveEntry g e).id = if e.id = "" ∨ e.id = "@new" then g else e.id := by
  unfold effectiveEntry
  split <;> rfl

theorem effectiveEntry_patientId (g : String) (e : WaitingListEntry) :
    (effectiveEntry g e).patientId = e.patientId := by
  unfold effectiveEntry
  split <;> rfl

theorem mergeEntry_patientId (e t : WaitingListEntry) :
    (mergeEntry e t).patientId = if e.patientId ≠ "" then e.patientId else t.patientId := by
  unfold mergeEntry
  by_cases h1 : e.patientId ≠ "" <;> by_cases h2 : e.id ≠ "" <;>
    by_cases h3 : 0 < e.waitingSince <;>
      by_cases h4 : 0 < e.estimatedDurationMinutes <;>
        simp [h1, h2, h3, h4]

theorem mergeEntry_id (e t : WaitingListEntry) :
    (mergeEntry e t).id = if e.id ≠ "" then e.id else t.id := by
  unfold mergeEntry
  by_cases h1 : e.patientId ≠ "" <;> by_cases h2 : e.id ≠ "" <;>
    by_cases h3 : 0 < e.waitingSince <;>
      by_cases h4 : 0 < e.estimatedDurationMinutes <;>
        simp [h1, h2, h3, h4]

theorem mergeEntry_waitingSince (e t : WaitingListEntry) :
    (mergeEntry e t).waitingSince =
      if 0 < e.waitingSince then e.waitingSince else t.waitingSince := by
  unfold mergeEntry
  by_cases h1 : e.patientId ≠ "" <;> by_cases h2 : e.id ≠ "" <;>
    by_cases h3 : 0 < e.waitingSince <;>
      by_cases h4 : 0 < e.estimatedDurationMinutes <;>
        simp [h1, h2, h3, h4]

theorem mergeEntry_duration (e t : WaitingListEntry) :
    (mergeEntry e t).estimatedDurationMinutes =
      if 0 < e.estimatedDurationMinutes then e.estimatedDurationMinutes
      else t.estimatedDurationMinutes := by
  unfold mergeEntry
  by_cases h1 : e.patientId ≠ "" <;> by_cases h2 : e.id ≠ "" <;>
    by_cases h3 : 0 < e.waitingSince <;>
      by_cases h4 : 0 < e.estimatedDurationMinutes <;>
        simp [h1, h2, h3, h4]

/-! ## Success-branch characterisations of the mutating operations -/

theorem create_newState_some (body : Option WaitingListEntry) (g : String)
    (amb a2 : Ambulance)
    (h : (createWaitingListEntry body g amb).newState = some a2) :
    ∃ e, body = some e ∧ e.patientId ≠ "" ∧
      (∀ x ∈ amb.waitingList,
        (effectiveEntry g e).id ≠ x.id ∧ e.patientId ≠ x.patientId) ∧
      a2 = reconcileWaitingList
        { amb with waitingList := amb.waitingList ++ [effectiveEntry g e] } := by
  cases body with
  | none => simp [createWaitingListEntry] at h
  | some e =>
    refine ⟨e, rfl, ?_⟩
    simp only [createWaitingListEntry] at h
    split at h
    · simp at h
    · rename_i hpid
      split at h
      · simp at h
      · rename_i hconf
        split at h
        · simp at h
        · rename_i hfind
          refine ⟨hpid, ?_, ?_⟩
          · intro x hx
            have hneg : indexFunc amb.waitingList
                (fun waiting => (effectiveEntry g e).id == waiting.id ||
                  (effectiveEntry g e).patientId == waiting.patientId) < 0 := by
              omega
            have hfa := (indexFunc_neg_iff _ _).mp hneg x hx
            simp only [Bool.or_eq_false_iff, beq_eq_false_iff_ne] at hfa
            exact ⟨hfa.1, by rw [← effectiveEntry_patientId g e]; exact hfa.2⟩
          · exact (Option.some.inj h).symm

theorem delete_newState_some (eid : String) (amb a2 : Ambulance)
    (h : (deleteWaitingListEntry eid amb).newState = some a2) :
    eid ≠ "" ∧ 0 ≤ indexFunc amb.waitingList (fun w => eid == w.id) ∧
      a2 = reconcileWaitingList { amb with waitingList :=
        (amb.waitingList.take
            (indexFunc amb.waitingList (fun w => eid == w.id)).toNat ++
          amb.waitingList.drop
            ((indexFunc amb.waitingList (fun w => eid == w.id)).toNat + 1)) } := by
  simp only [deleteWaitingListEntry] at h
  split at h
  · simp at h
  · rename_i heid
    split at h
    · simp at h
    · rename_i hfound
      exact ⟨heid, by omega, (Option.some.inj h).symm⟩

theorem update_newState_some (body : Option WaitingListEntry) (eid : String)
    (amb a2 : Ambulance)
    (h : (updateWaitingListEntry body eid amb).newState = some a2) :
    ∃ e, body = some e ∧ eid ≠ "" ∧
      0 ≤ indexFunc amb.waitingList (fun w => eid == w.id) ∧
      a2 = reconcileWaitingList { amb with waitingList :=
        (amb.waitingList.set
          (indexFunc amb.waitingList (fun w => eid == w.id)).toNat
          (mergeEntry e (amb.waitingList.getD
            (indexFunc amb.waitingList (fun w => eid == w.id)).toNat
            defaultEntry))) } := by
  cases body with
  | none => simp [updateWaitingListEntry] at h
  | some e =>
    refine ⟨e, rfl, ?_⟩
    simp only [updateWaitingListEntry] at h
    split at h
    · simp at h
    · rename_i heid
      split at h
      · simp at h
      · rename_i hfound
        exact ⟨heid, by omega, (Option.some.inj h).symm⟩

/-! ## Claims -/

/-- Claim C6: the Reconciler is idempotent — reconciling an
already-reconciled list produces no further change, i.e. applying
`reconcileWaitingList` twice yields the same ambulance as applying it
once. -/
theorem c6_reconcile_idempotent (ambulance : Ambulance) :
    reconcileWaitingList (reconcileWaitingList ambulance) =
      reconcileWaitingList ambulance := by
  have h := List.Sorted.insertionSort_eq
    (List.sorted_insertionSort entryBefore ambulance.waitingList)
  simp [reconcileWaitingList, h]

/-- Claim C7: Get-all returns 200 with the ambulance's waiting list as
payload — an empty sequence and never JSON `null` when there are no
entries (even for a nil slice) — and a nil new state, so the Updater
issues no store write and the stored document is unchanged. -/
theorem c7_get_all_readonly (wl : Option (List WaitingListEntry))
    (amb : Ambulance) :
    getWaitingListEntriesRaw wl =
      { newState := none, payload := Payload.listPayload (wl.getD []),
        status := 200 } ∧
    (getWaitingListEntriesRaw wl).payload ≠ Payload.nullJson ∧
    updateAmbulanceFunc (some amb) getWaitingListEntries =
      { stored := some amb, writeIssued := false,
        payload := Payload.listPayload amb.waitingList, status := 200 } := by
  refine ⟨?_, ?_, ?_⟩
  · cases wl <;> simp [getWaitingListEntriesRaw]
  · cases wl <;> simp [getWaitingListEntriesRaw]
  · simp [updateAmbulanceFunc, getWaitingListEntries, getWaitingListEntriesRaw]

/-- Claim C9: the guarded list indexing of the operations is safe — whenever
an `indexFunc` result has passed the non-negativity guard, the index is
within bounds, the access hits a real element of the list (so the
out-of-range default branch of the embedded `getD` is unreachable), and
that element satisfies the searched predicate. -/
theorem c9_guarded_index_safe (l : List WaitingListEntry)
    (p : WaitingListEntry → Bool) (h : 0 ≤ indexFunc l p) :
    (indexFunc l p).toNat < l.length ∧
      l.getD (indexFunc l p).toNat defaultEntry ∈ l ∧
      p (l.getD (indexFunc l p).toNat defaultEntry) = true := by
  obtain ⟨hlt, hp⟩ := indexFunc_spec defaultEntry l p h
  exact ⟨hlt, getD_mem l _ defaultEntry hlt, hp⟩

/-- Witness for C9 at a concrete one-element list. -/
theorem c9_guarded_index_safe_witness :
    (indexFunc [defaultEntry] (fun w => w.id == "")).toNat <
        [defaultEntry].length ∧
      [defaultEntry].getD
          (indexFunc [defaultEntry] (fun w => w.id == "")).toNat defaultEntry ∈
        [defaultEntry] ∧
      (fun w => w.id == "")
          ([defaultEntry].getD
            (indexFunc [defaultEntry] (fun w => w.id == "")).toNat
            defaultEntry) = true :=
  c9_guarded_index_safe [defaultEntry] (fun w => w.id == "") (by decide)

/-- Claim C10: Create's 500 "Failed to save entry" branch (taken when the
appended entry's id is not found after reconciliation) is unreachable,
because reconciliation permutes the list and hence preserves its ids; so no
Create invocation returns status 500 from business logic. -/
theorem c10_create_500_unreachable (body : Option WaitingListEntry)
    (g : String) (amb : Ambulance) :
    (createWaitingListEntry body g amb).status ≠ 500 := by
  cases body with
  | none => simp [createWaitingListEntry]
  | some e =>
    simp only [createWaitingListEntry]
    split
    · simp
    · split
      · simp
      · split
        · rename_i hlt
          exfalso
          have hmem : effectiveEntry g e ∈
              (reconcileWaitingList { amb with
                waitingList := amb.waitingList ++ [effectiveEntry g e] }).waitingList := by
            refine (reconcile_perm _).mem_iff.mpr ?_
            simp
          have hfalse := (indexFunc_neg_iff _ _).mp hlt _ hmem
          simp at hfalse
        · simp

/-- Witness for C10 at a concrete request. -/
theorem c10_create_500_unreachable_witness :
    (createWaitingListEntry
        (some { id := "e1", patientId := "P1", waitingSince := 5,
                estimatedDurationMinutes := 10 })
        "gen-1"
        { id := "amb", name := "n", waitingList := [] }).status ≠ 500 :=
  c10_create_500_unreachable _ _ _

/-- Claim C3: every mutating operation (Create, Update, Delete) that
returns a non-nil new state leaves that state's waiting list sorted by
`waitingSince` ascending with ties broken by entry id (`entryBefore`);
a Get-all on such a state returns that list, whose head has the earliest
`waitingSince`. -/
theorem c3_mutations_reconciled :
    (∀ (body : Option WaitingListEntry) (g : String) (amb a2 : Ambulance),
      (createWaitingListEntry body g amb).newState = some a2 →
      List.Sorted entryBefore a2.waitingList) ∧
    (∀ (eid : String) (amb a2 : Ambulance),
      (deleteWaitingListEntry eid amb).newState = some a2 →
      List.Sorted entryBefore a2.waitingList) ∧
    (∀ (body : Option WaitingListEntry) (eid : String) (amb a2 : Ambulance),
      (updateWaitingListEntry body eid amb).newState = some a2 →
      List.Sorted entryBefore a2.waitingList) ∧
    (∀ (a2 : Ambulance) (h x : WaitingListEntry),
      (getWaitingListEntries a2).payload = Payload.listPayload a2.waitingList ∧
      (List.Sorted entryBefore a2.waitingList →
        a2.waitingList.head? = some h → x ∈ a2.waitingList →
        h.waitingSince ≤ x.waitingSince)) := by
  refine ⟨?_, ?_, ?_, ?_⟩
  · intro body g amb a2 hsome
    obtain ⟨e, -, -, -, rfl⟩ := create_newState_some body g amb a2 hsome
    exact reconcile_sorted _
  · intro eid amb a2 hsome
    obtain ⟨-, -, rfl⟩ := delete_newState_some eid amb a2 hsome
    exact reconcile_sorted _
  · intro body eid amb a2 hsome
    obtain ⟨e, -, -, -, rfl⟩ := update_newState_some body eid amb a2 hsome
    exact reconcile_sorted _
  · intro a2 h x
    constructor
    · simp [getWaitingListEntries, getWaitingListEntriesRaw]
    · intro hs hh hx
      cases hl : a2.waitingList with
      | nil => rw [hl] at hh; simp at hh
      | cons y t =>
        rw [hl] at hh hx hs
        have hy : y = h := by simpa using hh
        subst hy
        rcases List.mem_cons.mp hx with rfl | hxt
        · exact le_refl _
        · have hyx := (List.sorted_cons.mp hs).1 x hxt
          rcases hyx with h1 | ⟨h2, -⟩
          · exact Nat.le_of_lt h1
          · exact le_of_eq h2

/-- Witness for C3: deleting the sole entry of a concrete ambulance yields
a reconciled (sorted) new state. -/
theorem c3_mutations_reconciled_witness :
    List.Sorted entryBefore
      (Ambulance.mk "amb" "n" ([] : List WaitingListEntry)).waitingList :=
  c3_mutations_reconciled.2.1 "x"
    (Ambulance.mk "amb" "n"
      [{ id := "x", patientId := "p", waitingSince := 5,
         estimatedDurationMinutes := 1 }])
    (Ambulance.mk "amb" "n" []) (by decide)

/-- Claim C8: deleting a non-empty `entryId` that matches no entry returns
404 with a nil new state; through the Updater no store write is issued and
the stored ambulance is unchanged. -/
theorem c8_delete_not_found (eid : String) (amb : Ambulance)
    (h1 : eid ≠ "") (h2 : ∀ x ∈ amb.waitingList, x.id ≠ eid) :
    deleteWaitingListEntry eid amb =
      { newState := none, payload := Payload.errorObj 404 "Entry not found",
        status := 404 } ∧
    updateAmbulanceFunc (some amb) (deleteWaitingListEntry eid) =
      { stored := some amb, writeIssued := false,
        payload := Payload.errorObj 404 "Entry not found", status := 404 } := by
  have hneg : indexFunc amb.waitingList (fun w => eid == w.id) < 0 := by
    rw [indexFunc_neg_iff]
    intro x hx
    simp only [beq_eq_false_iff_ne]
    exact fun he => (h2 x hx) he.symm
  constructor
  · simp [deleteWaitingListEntry, h1, hneg]
  · simp [updateAmbulanceFunc, deleteWaitingListEntry, h1, hneg]

/-- Witness for C8 at a concrete ambulance and entry id. -/
theorem c8_delete_not_found_witness :
    deleteWaitingListEntry "z"
        (Ambulance.mk "amb" "n"
          [{ id := "x", patientId := "p", waitingSince := 5,
             estimatedDurationMinutes := 1 }]) =
      { newState := none, payload := Payload.errorObj 404 "Entry not found",
        status := 404 } ∧
    updateAmbulanceFunc
        (some (Ambulance.mk "amb" "n"
          [{ id := "x", patientId := "p", waitingSince := 5,
             estimatedDurationMinutes := 1 }]))
        (deleteWaitingListEntry "z") =
      { stored := some (Ambulance.mk "amb" "n"
          [{ id := "x", patientId := "p", waitingSince := 5,
             estimatedDurationMinutes := 1 }]),
        writeIssued := false,
        payload := Payload.errorObj 404 "Entry not found", status := 404 } :=
  c8_delete_not_found "z" _ (by decide) (by decide)

/-- After appending a fresh-id entry and reconciling, the re-find by id
succeeds and returns exactly the appended entry. -/
theorem reconcile_append_find (amb : Ambulance) (v : WaitingListEntry)
    (hfresh : ∀ x ∈ amb.waitingList, v.id ≠ x.id) :
    0 ≤ indexFunc
        (reconcileWaitingList
          { amb with waitingList := amb.waitingList ++ [v] }).waitingList
        (fun waiting => v.id == waiting.id) ∧
      (reconcileWaitingList
          { amb with waitingList := amb.waitingList ++ [v] }).waitingList.getD
        (indexFunc
          (reconcileWaitingList
            { amb with waitingList := amb.waitingList ++ [v] }).waitingList
          (fun waiting => v.id == waiting.id)).toNat defaultEntry = v := by
  have key : ∀ L : List WaitingListEntry, L.Perm (amb.waitingList ++ [v]) →
      0 ≤ indexFunc L (fun waiting => v.id == waiting.id) ∧
        L.getD (indexFunc L (fun waiting => v.id == waiting.id)).toNat
          defaultEntry = v := by
    intro L hperm
    have hmemv : v ∈ L := hperm.mem_iff.mpr (by simp)
    have hpos : 0 ≤ indexFunc L (fun waiting => v.id == waiting.id) :=
      (indexFunc_nonneg_iff _ _).mpr ⟨v, hmemv, by simp⟩
    obtain ⟨hlt, hp⟩ :=
      indexFunc_spec defaultEntry L (fun waiting => v.id == waiting.id) hpos
    have hg := getD_mem L _ defaultEntry hlt
    have hmem2 : L.getD (indexFunc L
        (fun waiting => v.id == waiting.id)).toNat defaultEntry ∈
        amb.waitingList ++ [v] := hperm.mem_iff.mp hg
    rcases List.mem_append.mp hmem2 with hin | hin
    · exfalso
      have hid : v.id = (L.getD (indexFunc L
          (fun waiting => v.id == waiting.id)).toNat defaultEntry).id := by
        simpa using hp
      exact (hfresh _ hin) hid
    · exact ⟨hpos, List.mem_singleton.mp hin⟩
  exact key _ (reconcile_perm _)

/-- Claim C4 (amended: the request must additionally carry a non-empty
`patientId`, otherwise validation answers 400 before the conflict check):
a Create whose entry's id (after id generation) or patientId collides with
an existing entry returns 409 with a nil new state; through the Updater no
store write is issued and the stored ambulance is unchanged. -/
theorem c4_create_conflict_amended (e : WaitingListEntry) (g : String)
    (amb : Ambulance) (hpid : e.patientId ≠ "")
    (hconf : ∃ x ∈ amb.waitingList,
      (effectiveEntry g e).id = x.id ∨ e.patientId = x.patientId) :
    createWaitingListEntry (some e) g amb =
      { newState := none,
        payload := Payload.errorObj 409 "Entry already exists",
        status := 409 } ∧
    updateAmbulanceFunc (some amb) (createWaitingListEntry (some e) g) =
      { stored := some amb, writeIssued := false,
        payload := Payload.errorObj 409 "Entry already exists",
        status := 409 } := by
  have hpos : 0 ≤ indexFunc amb.waitingList
      (fun waiting => (effectiveEntry g e).id == waiting.id ||
        (effectiveEntry g e).patientId == waiting.patientId) := by
    rw [indexFunc_nonneg_iff]
    obtain ⟨x, hx, hor⟩ := hconf
    refine ⟨x, hx, ?_⟩
    rcases hor with h | h
    · simp [h]
    · simp [effectiveEntry_patientId, h]
  constructor
  · simp [createWaitingListEntry, hpid, hpos]
  · simp [updateAmbulanceFunc, createWaitingListEntry, hpid, hpos]

/-- Counterexample to C4 as stated: a Create request whose id collides with
an existing entry's id but whose `patientId` is empty is answered 400
(validation), not 409, because the `patientId` check precedes the conflict
check. -/
theorem c4_counterexample :
    (effectiveEntry "g"
        { id := "x", patientId := "", waitingSince := 0,
          estimatedDurationMinutes := 0 }).id =
      ({ id := "x", patientId := "p", waitingSince := 1,
         estimatedDurationMinutes := 1 } : WaitingListEntry).id ∧
    createWaitingListEntry
        (some { id := "x", patientId := "", waitingSince := 0,
                estimatedDurationMinutes := 0 }) "g"
        (Ambulance.mk "amb" "n"
          [{ id := "x", patientId := "p", waitingSince := 1,
             estimatedDurationMinutes := 1 }]) =
      { newState := none,
        payload := Payload.errorObj 400 "Patient ID is required",
        status := 400 } := by
  decide

/-- Witness for C4 (amended) at a concrete colliding `patientId`. -/
theorem c4_create_conflict_amended_witness :
    createWaitingListEntry
        (some { id := "b", patientId := "P1", waitingSince := 2,
                estimatedDurationMinutes := 2 }) "g"
        (Ambulance.mk "amb" "n"
          [{ id := "a", patientId := "P1", waitingSince := 1,
             estimatedDurationMinutes := 1 }]) =
      { newState := none,
        payload := Payload.errorObj 409 "Entry already exists",
        status := 409 } ∧
    updateAmbulanceFunc
        (some (Ambulance.mk "amb" "n"
          [{ id := "a", patientId := "P1", waitingSince := 1,
             estimatedDurationMinutes := 1 }]))
        (createWaitingListEntry
          (some { id := "b", patientId := "P1", waitingSince := 2,
                  estimatedDurationMinutes := 2 }) "g") =
      { stored := some (Ambulance.mk "amb" "n"
          [{ id := "a", patientId := "P1", waitingSince := 1,
             estimatedDurationMinutes := 1 }]),
        writeIssued := false,
        payload := Payload.errorObj 409 "Entry already exists",
        status := 409 } :=
  c4_create_conflict_amended _ "g" _ (by decide) (by decide)

/-- Claim C5: a valid Create (body binds, non-empty `patientId`, no
conflict) returns 200 with the stored post-reconciliation entry; the
server-side id is generated exactly when the supplied id is `""` or
`"@new"` and kept otherwise, and the returned entry carries that id and
the request's `patientId`. -/
theorem c5_create_success (e : WaitingListEntry) (g : String)
    (amb : Ambulance) (hpid : e.patientId ≠ "")
    (hnoconf : ∀ x ∈ amb.waitingList,
      (effectiveEntry g e).id ≠ x.id ∧ e.patientId ≠ x.patientId) :
    createWaitingListEntry (some e) g amb =
      { newState := some (reconcileWaitingList
          { amb with waitingList := amb.waitingList ++ [effectiveEntry g e] }),
        payload := Payload.entryPayload (effectiveEntry g e),
        status := 200 } ∧
    (effectiveEntry g e).id =
      (if e.id = "" ∨ e.id = "@new" then g else e.id) ∧
    (effectiveEntry g e).patientId = e.patientId := by
  have hneg : indexFunc amb.waitingList
      (fun waiting => (effectiveEntry g e).id == waiting.id ||
        (effectiveEntry g e).patientId == waiting.patientId) < 0 := by
    rw [indexFunc_neg_iff]
    intro x hx
    simp only [Bool.or_eq_false_iff, beq_eq_false_iff_ne]
    exact ⟨(hnoconf x hx).1, by
      rw [effectiveEntry_patientId]
      exact (hnoconf x hx).2⟩
  have hnotpos : ¬ 0 ≤ indexFunc amb.waitingList
      (fun waiting => (effectiveEntry g e).id == waiting.id ||
        (effectiveEntry g e).patientId == waiting.patientId) := by omega
  obtain ⟨hpos2, heq⟩ :=
    reconcile_append_find amb (effectiveEntry g e)
      (fun x hx => (hnoconf x hx).1)
  have hnotlt : ¬ indexFunc
      (reconcileWaitingList
        { amb with
          waitingList := amb.waitingList ++ [effectiveEntry g e] }).waitingList
      (fun waiting => (effectiveEntry g e).id == waiting.id) < 0 := by omega
  refine ⟨?_, effectiveEntry_id g e, effectiveEntry_patientId g e⟩
  have heq2 := heq
  rw [List.getD_eq_getElem?_getD] at heq2
  simp [createWaitingListEntry, hpid, hnotpos, hnotlt, heq2]

/-- Witness for C5: creating into an empty ambulance with the `"@new"`
placeholder id. -/
theorem c5_create_success_witness :
    createWaitingListEntry
        (some { id := "@new", patientId := "P1", waitingSince := 5,
                estimatedDurationMinutes := 10 }) "gen-1"
        (Ambulance.mk "amb" "n" []) =
      { newState := some (reconcileWaitingList
          { Ambulance.mk "amb" "n" [] with waitingList :=
              (Ambulance.mk "amb" "n" []).waitingList ++
                [effectiveEntry "gen-1"
                  { id := "@new", patientId := "P1", waitingSince := 5,
                    estimatedDurationMinutes := 10 }] }),
        payload := Payload.entryPayload
          (effectiveEntry "gen-1"
            { id := "@new", patientId := "P1", waitingSince := 5,
              estimatedDurationMinutes := 10 }),
        status := 200 } ∧
    (effectiveEntry "gen-1"
        { id := "@new", patientId := "P1", waitingSince := 5,
          estimatedDurationMinutes := 10 }).id =
      (if ("@new" : String) = "" ∨ ("@new" : String) = "@new" then "gen-1"
       else "@new") ∧
    (effectiveEntry "gen-1"
        { id := "@new", patientId := "P1", waitingSince := 5,
          estimatedDurationMinutes := 10 }).patientId = "P1" :=
  c5_create_success _ "gen-1" _ (by decide) (by decide)

/-- Claim C2, evaluated at a failing input: updating entry `"a"` (waiting
since 1) with a body that only populates `waitingSince := 3` merges
correctly into the stored state, but because reconciliation re-sorts the
list *before* the payload is read back at the stale pre-sort index, the
200 response carries the *other* entry `"b"` — not the merged target
`⟨"a","p1",3,5⟩` the claim (and spec) promise. -/
theorem c2_update_payload_stale_index :
    updateWaitingListEntry
        (some { id := "", patientId := "", waitingSince := 3,
                estimatedDurationMinutes := 0 }) "a"
        (Ambulance.mk "amb" "n"
          [{ id := "a", patientId := "p1", waitingSince := 1,
             estimatedDurationMinutes := 5 },
           { id := "b", patientId := "p2", waitingSince := 2,
             estimatedDurationMinutes := 5 }]) =
      { newState := some (Ambulance.mk "amb" "n"
          [{ id := "b", patientId := "p2", waitingSince := 2,
             estimatedDurationMinutes := 5 },
           { id := "a", patientId := "p1", waitingSince := 3,
             estimatedDurationMinutes := 5 }]),
        payload := Payload.entryPayload
          { id := "b", patientId := "p2", waitingSince := 2,
            estimatedDurationMinutes := 5 },
        status := 200 } ∧
    mergeEntry
        { id := "", patientId := "", waitingSince := 3,
          estimatedDurationMinutes := 0 }
        { id := "a", patientId := "p1", waitingSince := 1,
          estimatedDurationMinutes := 5 } =
      { id := "a", patientId := "p1", waitingSince := 3,
        estimatedDurationMinutes := 5 } ∧
    Payload.entryPayload
        { id := "b", patientId := "p2", waitingSince := 2,
          estimatedDurationMinutes := 5 } ≠
      Payload.entryPayload
        { id := "a", patientId := "p1", waitingSince := 3,
          estimatedDurationMinutes := 5 } := by
  decide

/-- Appending an entry whose `f`-key is fresh keeps the mapped list
duplicate-free. -/
theorem nodup_map_append_singleton {α β : Type} (f : α → β) (l : List α)
    (v : α) (h : (l.map f).Nodup) (hv : ∀ x ∈ l, f x ≠ f v) :
    ((l ++ [v]).map f).Nodup := by
  rw [List.map_append, List.nodup_append]
  refine ⟨h, by simp, ?_⟩
  intro a ha hav
  simp only [List.map_cons, List.map_nil, List.mem_singleton] at hav
  obtain ⟨x, hx, rfl⟩ := List.mem_map.mp ha
  exact hv x hx hav

/-- A successful Create preserves duplicate-freedom of ids and
patientIds. -/
theorem create_preserves_nodup (body : Option WaitingListEntry) (g : String)
    (amb a2 : Ambulance) (h1 : idsNodup amb.waitingList)
    (h2 : patientIdsNodup amb.waitingList)
    (hsome : (createWaitingListEntry body g amb).newState = some a2) :
    idsNodup a2.waitingList ∧ patientIdsNodup a2.waitingList := by
  obtain ⟨e, -, -, hnoconf, rfl⟩ := create_newState_some body g amb a2 hsome
  constructor
  · refine nodup_map_of_perm _ (reconcile_perm _).symm ?_
    exact nodup_map_append_singleton _ _ _ h1
      (fun x hx hxe => (hnoconf x hx).1 hxe.symm)
  · refine nodup_map_of_perm _ (reconcile_perm _).symm ?_
    refine nodup_map_append_singleton _ _ _ h2 (fun x hx => ?_)
    rw [effectiveEntry_patientId]
    exact fun hxe => (hnoconf x hx).2 hxe.symm

/-- A successful Delete preserves duplicate-freedom of ids and
patientIds. -/
theorem delete_preserves_nodup (eid : String) (amb a2 : Ambulance)
    (h1 : idsNodup amb.waitingList) (h2 : patientIdsNodup amb.waitingList)
    (hsome : (deleteWaitingListEntry eid amb).newState = some a2) :
    idsNodup a2.waitingList ∧ patientIdsNodup a2.waitingList := by
  obtain ⟨-, -, rfl⟩ := delete_newState_some eid amb a2 hsome
  have key : ∀ (f : WaitingListEntry → String),
      ((amb.waitingList.map f).Nodup) →
      (((amb.waitingList.take
          (indexFunc amb.waitingList (fun w => eid == w.id)).toNat ++
        amb.waitingList.drop
          ((indexFunc amb.waitingList (fun w => eid == w.id)).toNat + 1)).map
            f).Nodup) := by
    intro f hf
    rw [← List.eraseIdx_eq_take_drop_succ]
    exact List.Nodup.sublist ((List.eraseIdx_sublist _ _).map f) hf
  exact ⟨nodup_map_of_perm _ (reconcile_perm _).symm (key _ h1),
         nodup_map_of_perm _ (reconcile_perm _).symm (key _ h2)⟩

/-- A successful Update preserves duplicate-freedom of ids and patientIds,
provided the request's id is empty, the target's own id, or fresh, and the
request's patientId is empty or not another entry's patientId. -/
theorem update_preserves_nodup (e : WaitingListEntry) (eid : String)
    (amb a2 : Ambulance) (h1 : idsNodup amb.waitingList)
    (h2 : patientIdsNodup amb.waitingList)
    (hre : e.id = "" ∨ e.id = eid ∨ ∀ x ∈ amb.waitingList, x.id ≠ e.id)
    (hpe : e.patientId = "" ∨
      ∀ x ∈ amb.waitingList, x.id ≠ eid → x.patientId ≠ e.patientId)
    (hsome : (updateWaitingListEntry (some e) eid amb).newState = some a2) :
    idsNodup a2.waitingList ∧ patientIdsNodup a2.waitingList := by
  obtain ⟨e', he', heid, hfound, rfl⟩ :=
    update_newState_some (some e) eid amb a2 hsome
  obtain rfl := Option.some.inj he'
  set l := amb.waitingList with hl
  set i := (indexFunc l (fun w => eid == w.id)).toNat with hidef
  set tgt := l.getD i defaultEntry with htgt
  set m := mergeEntry e tgt with hm
  have hspec := indexFunc_spec defaultEntry l (fun w => eid == w.id) hfound
  rw [← hidef] at hspec
  obtain ⟨hi, hp⟩ := hspec
  rw [← htgt] at hp
  have heidt : eid = tgt.id := by simpa using hp
  have hget : tgt = l.get ⟨i, hi⟩ := by
    rw [htgt]
    exact List.getD_eq_get l defaultEntry hi
  have hnotid : ∀ x ∈ l.eraseIdx i, x.id ≠ tgt.id := by
    intro x hx
    rw [hget]
    exact not_mem_map_eraseIdx _ l i hi h1 x hx
  have hnotpid : ∀ x ∈ l.eraseIdx i, x.patientId ≠ tgt.patientId := by
    intro x hx
    rw [hget]
    exact not_mem_map_eraseIdx _ l i hi h2 x hx
  have hxid_ne_eid : ∀ x ∈ l.eraseIdx i, x.id ≠ eid := by
    intro x hx
    rw [heidt]
    exact hnotid x hx
  have hv_id : ∀ x ∈ l.eraseIdx i, x.id ≠ m.id := by
    intro x hx
    by_cases hid0 : e.id = ""
    · have hmid : m.id = tgt.id := by rw [hm, mergeEntry_id]; simp [hid0]
      rw [hmid]
      exact hnotid x hx
    · have hmid : m.id = e.id := by rw [hm, mergeEntry_id]; simp [hid0]
      rw [hmid]
      rcases hre with h | h | h
      · exact absurd h hid0
      · rw [h]
        exact hxid_ne_eid x hx
      · exact h x ((List.eraseIdx_sublist l i).subset hx)
  have hv_pid : ∀ x ∈ l.eraseIdx i, x.patientId ≠ m.patientId := by
    intro x hx
    by_cases hp0 : e.patientId = ""
    · have hmp : m.patientId = tgt.patientId := by
        rw [hm, mergeEntry_patientId]; simp [hp0]
      rw [hmp]
      exact hnotpid x hx
    · have hmp : m.patientId = e.patientId := by
        rw [hm, mergeEntry_patientId]; simp [hp0]
      rw [hmp]
      rcases hpe with h | h
      · exact absurd h hp0
      · exact h x ((List.eraseIdx_sublist l i).subset hx) (hxid_ne_eid x hx)
  exact ⟨nodup_map_of_perm _ (reconcile_perm _).symm
           (nodup_map_set _ l i m h1 hv_id),
         nodup_map_of_perm _ (reconcile_perm _).symm
           (nodup_map_set _ l i m h2 hv_pid)⟩

/-- Claim C1 (amended): starting from a state whose ids and patientIds are
each pairwise distinct, Create and Delete always preserve both
distinctness properties on success; Update preserves them provided the
request's id is empty, equal to the target's id, or unused by any entry,
and the request's patientId is empty or not carried by any other entry.
(Unrestricted, Update's caller-supplied id/patientId overwrite can break
the invariant — see the counterexample.) -/
theorem c1_unique_ids_amended :
    (∀ (body : Option WaitingListEntry) (g : String) (amb a2 : Ambulance),
      idsNodup amb.waitingList → patientIdsNodup amb.waitingList →
      (createWaitingListEntry body g amb).newState = some a2 →
      idsNodup a2.waitingList ∧ patientIdsNodup a2.waitingList) ∧
    (∀ (eid : String) (amb a2 : Ambulance),
      idsNodup amb.waitingList → patientIdsNodup amb.waitingList →
      (deleteWaitingListEntry eid amb).newState = some a2 →
      idsNodup a2.waitingList ∧ patientIdsNodup a2.waitingList) ∧
    (∀ (e : WaitingListEntry) (eid : String) (amb a2 : Ambulance),
      idsNodup amb.waitingList → patientIdsNodup amb.waitingList →
      (e.id = "" ∨ e.id = eid ∨ ∀ x ∈ amb.waitingList, x.id ≠ e.id) →
      (e.patientId = "" ∨
        ∀ x ∈ amb.waitingList, x.id ≠ eid → x.patientId ≠ e.patientId) →
      (updateWaitingListEntry (some e) eid amb).newState = some a2 →
      idsNodup a2.waitingList ∧ patientIdsNodup a2.waitingList) :=
  ⟨fun body g amb a2 h1 h2 hs =>
      create_preserves_nodup body g amb a2 h1 h2 hs,
   fun eid amb a2 h1 h2 hs =>
      delete_preserves_nodup eid amb a2 h1 h2 hs,
   fun e eid amb a2 h1 h2 hre hpe hs =>
      update_preserves_nodup e eid amb a2 h1 h2 hre hpe hs⟩

/-- Counterexample to C1 as stated: from a state with distinct ids and
patientIds, an Update of entry `"a"` whose body sets `id := "b"` (the other
entry's id) succeeds with 200 and leaves two entries with id `"b"` — ids
are no longer pairwise distinct after the operation. -/
theorem c1_counterexample :
    idsNodup
        [{ id := "a", patientId := "p1", waitingSince := 1,
           estimatedDurationMinutes := 5 },
         { id := "b", patientId := "p2", waitingSince := 2,
           estimatedDurationMinutes := 5 }] ∧
    patientIdsNodup
        [{ id := "a", patientId := "p1", waitingSince := 1,
           estimatedDurationMinutes := 5 },
         { id := "b", patientId := "p2", waitingSince := 2,
           estimatedDurationMinutes := 5 }] ∧
    (updateWaitingListEntry
        (some { id := "b", patientId := "", waitingSince := 0,
                estimatedDurationMinutes := 0 }) "a"
        (Ambulance.mk "amb" "n"
          [{ id := "a", patientId := "p1", waitingSince := 1,
             estimatedDurationMinutes := 5 },
           { id := "b", patientId := "p2", waitingSince := 2,
             estimatedDurationMinutes := 5 }])).status = 200 ∧
    (updateWaitingListEntry
        (some { id := "b", patientId := "", waitingSince := 0,
                estimatedDurationMinutes := 0 }) "a"
        (Ambulance.mk "amb" "n"
          [{ id := "a", patientId := "p1", waitingSince := 1,
             estimatedDurationMinutes := 5 },
           { id := "b", patientId := "p2", waitingSince := 2,
             estimatedDurationMinutes := 5 }])).newState =
      some (Ambulance.mk "amb" "n"
        [{ id := "b", patientId := "p1", waitingSince := 1,
           estimatedDurationMinutes := 5 },
         { id := "b", patientId := "p2", waitingSince := 2,
           estimatedDurationMinutes := 5 }]) ∧
    ¬ idsNodup
        [{ id := "b", patientId := "p1", waitingSince := 1,
           estimatedDurationMinutes := 5 },
         { id := "b", patientId := "p2", waitingSince := 2,
           estimatedDurationMinutes := 5 }] := by
  decide

/-- Witness for C1 (amended), Create conjunct at a concrete input. -/
theorem c1_unique_ids_amended_witness :
    idsNodup (Ambulance.mk "amb" "n"
        [{ id := "e1", patientId := "P1", waitingSince := 5,
           estimatedDurationMinutes := 10 }]).waitingList ∧
    patientIdsNodup (Ambulance.mk "amb" "n"
        [{ id := "e1", patientId := "P1", waitingSince := 5,
           estimatedDurationMinutes := 10 }]).waitingList :=
  c1_unique_ids_amended.1
    (some { id := "e1", patientId := "P1", waitingSince := 5,
            estimatedDurationMinutes := 10 })
    "g1" (Ambulance.mk "amb" "n" [])
    (Ambulance.mk "amb" "n"
      [{ id := "e1", patientId := "P1", waitingSince := 5,
         estimatedDurationMinutes := 10 }])
    (by decide) (by decide) (by decide)

/-- Witness for C7 at a nil slice and a concrete ambulance. -/
theorem c7_get_all_readonly_witness :
    getWaitingListEntriesRaw none =
      { newState := none,
        payload := Payload.listPayload ((none : Option (List WaitingListEntry)).getD []),
        status := 200 } ∧
    (getWaitingListEntriesRaw none).payload ≠ Payload.nullJson ∧
    updateAmbulanceFunc (some (Ambulance.mk "amb" "n" []))
        getWaitingListEntries =
      { stored := some (Ambulance.mk "amb" "n" []), writeIssued := false,
        payload := Payload.listPayload (Ambulance.mk "amb" "n" []).waitingList,
        status := 200 } :=
  c7_get_all_readonly none (Ambulance.mk "amb" "n" [])
